import Mathlib

/-!
Verification development for the CalorieCoach repository.

The subject is the MCP tool-dispatch layer in `mcp_server/mcp_server.py`
(resource and tool catalogs, the `handle_call_tool` dispatcher and the four
tool handlers) together with the Flask backend routes it talks to
(`backend/app.py`: the `/api/search` and `/api/classify` endpoints).

The development embeds the Python code shallowly:

* JSON values are the inductive `Json`; `Json.dumps` models the stdlib
  `json.dumps` serialization that the handlers apply to parsed response
  bodies, and `Json.parse` is an executable JSON parser used to state the
  serialization round trip.  JSON numbers are embedded as integers (the
  bodies manipulated by the verified code paths are integer-valued); the
  `ensure_ascii` re-encoding of characters above U+007F performed by
  `json.dumps` is not modelled -- every character outside the mandatory
  escape set is emitted verbatim, which does not affect any stated property.
* Python argument dicts are association lists of `PyVal`; a failed key
  lookup produces the `KeyError` message `str(KeyError(k)) = "'k'"`.
* The HTTP client and the filesystem are an oracle `World`; each handler is
  a function from a `World` and an argument dict to an `Except` result
  paired with the list of HTTP requests it issued, so that "performs exactly
  one request" is a statement about the returned trace.
* Exceptions are `Except String` values carrying `str(exception)`.
-/

/-- JSON values, as produced by `response.json()` in the Python code.
Numbers are embedded as integers. -/
inductive Json where
  | null
  | bool (b : Bool)
  | num (n : Int)
  | str (s : String)
  | arr (items : List Json)
  | obj (fields : List (String × Json))

/-- Decimal digit characters of a natural number, most significant first,
accumulated onto `acc`; `fuel` bounds the recursion.  Mirrors the decimal
rendering Python `str` applies to a nonnegative `int`. -/
def natCharsAux : Nat → Nat → List Char → List Char
  | 0, _, acc => acc
  | f + 1, n, acc =>
    if n < 10 then Nat.digitChar n :: acc
    else natCharsAux f (n / 10) (Nat.digitChar (n % 10) :: acc)

/-- Decimal digit characters of a natural number, e.g. `natChars 120 = "120".data`. -/
def natChars (n : Nat) : List Char := natCharsAux (n + 1) n []

/-- Decimal rendering of an integer, mirroring Python `str` on `int`
(a leading minus sign for negative values). -/
def intChars (n : Int) : List Char :=
  if n < 0 then '-' :: natChars n.natAbs else natChars n.natAbs

/-- Escape one character the way the `json.dumps` string encoder does:
quote and backslash get a backslash escape, the named control characters
use their two-character escapes, any other control character below U+0020
becomes a `\u00XX` escape, and every other character is emitted verbatim. -/
def escChar (c : Char) : List Char :=
  if c = '"' then ['\\', '"']
  else if c = '\\' then ['\\', '\\']
  else if c = '\n' then ['\\', 'n']
  else if c = '\r' then ['\\', 'r']
  else if c = '\t' then ['\\', 't']
  else if c = Char.ofNat 8 then ['\\', 'b']
  else if c = Char.ofNat 12 then ['\\', 'f']
  else if c.toNat < 32 then
    ['\\', 'u', '0', '0', Nat.digitChar (c.toNat / 16), Nat.digitChar (c.toNat % 16)]
  else [c]

/-- Escape a character sequence for inclusion in a JSON string literal. -/
def escChars : List Char → List Char
  | [] => []
  | c :: cs => escChar c ++ escChars cs

mutual

/-- Serialize a JSON value to characters exactly as `json.dumps` does with
its default separators: `", "` between array items and object members and
`": "` between a key and its value. -/
def Json.dumpChars : Json → List Char
  | .null => 'n' :: 'u' :: 'l' :: 'l' :: []
  | .bool true => 't' :: 'r' :: 'u' :: 'e' :: []
  | .bool false => 'f' :: 'a' :: 'l' :: 's' :: 'e' :: []
  | .num n => intChars n
  | .str s => '"' :: (escChars s.data ++ ['"'])
  | .arr xs => '[' :: (Json.dumpItems xs ++ [']'])
  | .obj kvs => '{' :: (Json.dumpFields kvs ++ ['}'])

/-- Serialize the items of a JSON array, separated by `", "`. -/
def Json.dumpItems : List Json → List Char
  | [] => []
  | [x] => Json.dumpChars x
  | x :: xs => Json.dumpChars x ++ ',' :: ' ' :: Json.dumpItems xs

/-- Serialize the members of a JSON object, `"key": value` separated by `", "`. -/
def Json.dumpFields : List (String × Json) → List Char
  | [] => []
  | [(k, v)] => '"' :: (escChars k.data ++ '"' :: ':' :: ' ' :: Json.dumpChars v)
  | (k, v) :: kvs =>
      '"' :: (escChars k.data ++ '"' :: ':' :: ' ' :: Json.dumpChars v)
        ++ ',' :: ' ' :: Json.dumpFields kvs

end

/-- The `json.dumps` model at string type. -/
def Json.dumps (j : Json) : String := String.mk (Json.dumpChars j)

/-- Drop leading spaces (the only inter-token whitespace `json.dumps` emits). -/
def skipSpaces : List Char → List Char
  | [] => []
  | c :: cs => if c = ' ' then skipSpaces cs else c :: cs

/-- Numeric value of a decimal digit character. -/
def digitVal (c : Char) : Nat := c.toNat - 48

/-- Consume a maximal run of decimal digits, extending the accumulator `acc`. -/
def parseNatAux : List Char → Nat → Nat × List Char
  | [], acc => (acc, [])
  | c :: cs, acc =>
    if c.isDigit then parseNatAux cs (acc * 10 + digitVal c) else (acc, c :: cs)

/-- Numeric value of a hexadecimal digit character, if it is one. -/
def hexVal (c : Char) : Option Nat :=
  if c.isDigit then some (c.toNat - 48)
  else if 'a' ≤ c ∧ c ≤ 'f' then some (c.toNat - 87)
  else if 'A' ≤ c ∧ c ≤ 'F' then some (c.toNat - 55)
  else none

/-- Resolve a single-character JSON string escape. -/
def unescChar (e : Char) : Option Char :=
  if e = '"' then some '"'
  else if e = '\\' then some '\\'
  else if e = '/' then some '/'
  else if e = 'n' then some '\n'
  else if e = 'r' then some '\r'
  else if e = 't' then some '\t'
  else if e = 'b' then some (Char.ofNat 8)
  else if e = 'f' then some (Char.ofNat 12)
  else none

/-- Parse the body of a JSON string literal (the opening quote already
consumed), returning the decoded characters and the input after the
closing quote. -/
def parseStrBody : List Char → Option (List Char × List Char)
  | [] => none
  | c :: cs =>
    if c = '"' then some ([], cs)
    else if c = '\\' then
      match cs with
      | [] => none
      | e :: cs2 =>
        if e = 'u' then
          match cs2 with
          | h1 :: h2 :: h3 :: h4 :: cs3 =>
            match hexVal h1, hexVal h2, hexVal h3, hexVal h4 with
            | some a, some b, some x, some y =>
              (parseStrBody cs3).map
                (fun p => (Char.ofNat (((a * 16 + b) * 16 + x) * 16 + y) :: p.1, p.2))
            | _, _, _, _ => none
          | _ => none
        else
          match unescChar e with
          | some u => (parseStrBody cs2).map (fun p => (u :: p.1, p.2))
          | none => none
    else (parseStrBody cs).map (fun p => (c :: p.1, p.2))

mutual

/-- Parse one JSON value; `fuel` bounds the nesting the parser will follow. -/
def parseVal : Nat → List Char → Option (Json × List Char)
  | 0, _ => none
  | f + 1, l =>
    match skipSpaces l with
    | [] => none
    | c :: cs =>
      if c = '"' then
        (parseStrBody cs).map (fun p => (Json.str (String.mk p.1), p.2))
      else if c = '[' then
        match skipSpaces cs with
        | [] => none
        | d :: ds =>
          if d = ']' then some (Json.arr [], ds)
          else (parseItems f (d :: ds)).map (fun p => (Json.arr p.1, p.2))
      else if c = '{' then
        match skipSpaces cs with
        | [] => none
        | d :: ds =>
          if d = '}' then some (Json.obj [], ds)
          else (parseFields f (d :: ds)).map (fun p => (Json.obj p.1, p.2))
      else if c = '-' then
        match cs with
        | [] => none
        | d :: _ =>
          if d.isDigit then
            let p := parseNatAux cs 0
            some (Json.num (-(p.1 : Int)), p.2)
          else none
      else if c.isDigit then
        let p := parseNatAux (c :: cs) 0
        some (Json.num (p.1 : Int), p.2)
      else if c = 'n' then
        match cs with
        | u :: l1 :: l2 :: r =>
          if u = 'u' ∧ l1 = 'l' ∧ l2 = 'l' then some (Json.null, r) else none
        | _ => none
      else if c = 't' then
        match cs with
        | r1 :: u :: e :: r =>
          if r1 = 'r' ∧ u = 'u' ∧ e = 'e' then some (Json.bool true, r) else none
        | _ => none
      else if c = 'f' then
        match cs with
        | a :: l1 :: s :: e :: r =>
          if a = 'a' ∧ l1 = 'l' ∧ s = 's' ∧ e = 'e' then some (Json.bool false, r)
          else none
        | _ => none
      else none

/-- Parse the remaining items of a nonempty JSON array, consuming the
closing bracket. -/
def parseItems : Nat → List Char → Option (List Json × List Char)
  | 0, _ => none
  | f + 1, l =>
    match parseVal f l with
    | none => none
    | some (v, r) =>
      match skipSpaces r with
      | [] => none
      | c :: r2 =>
        if c = ']' then some ([v], r2)
        else if c = ',' then
          match parseItems f (skipSpaces r2) with
          | some p => some (v :: p.1, p.2)
          | none => none
        else none

/-- Parse the remaining members of a nonempty JSON object, consuming the
closing brace. -/
def parseFields : Nat → List Char → Option (List (String × Json) × List Char)
  | 0, _ => none
  | f + 1, l =>
    match l with
    | [] => none
    | c :: cs =>
      if c = '"' then
        match parseStrBody cs with
        | none => none
        | some (k, r1) =>
          match skipSpaces r1 with
          | [] => none
          | c2 :: r2 =>
            if c2 = ':' then
              match parseVal f (skipSpaces r2) with
              | none => none
              | some (v, r3) =>
                match skipSpaces r3 with
                | [] => none
                | c3 :: r4 =>
                  if c3 = '}' then some ([(String.mk k, v)], r4)
                  else if c3 = ',' then
                    match parseFields f (skipSpaces r4) with
                    | some p => some ((String.mk k, v) :: p.1, p.2)
                    | none => none
                  else none
            else none
      else none

end

/-- Parse a complete JSON document: one value followed only by whitespace. -/
def Json.parse (s : String) : Option Json :=
  match parseVal (s.data.length + 1) s.data with
  | some (j, r) => if skipSpaces r = [] then some j else none
  | none => none

mutual

/-- Structural size of a JSON value, used as parser fuel accounting. -/
def Json.sizeJ : Json → Nat
  | .arr xs => 1 + Json.sizeItems xs
  | .obj kvs => 1 + Json.sizeFields kvs
  | _ => 1

/-- Structural size of a JSON array item list. -/
def Json.sizeItems : List Json → Nat
  | [] => 0
  | x :: xs => 1 + Json.sizeJ x + Json.sizeItems xs

/-- Structural size of a JSON object member list. -/
def Json.sizeFields : List (String × Json) → Nat
  | [] => 0
  | (_, v) :: kvs => 1 + Json.sizeJ v + Json.sizeFields kvs

end

theorem Json.sizeJ_pos (j : Json) : 1 ≤ Json.sizeJ j := by
  cases j <;> simp [Json.sizeJ] <;> omega

/-- Number of decimal digits of a natural number. -/
def numDigits (n : Nat) : Nat :=
  if h : n < 10 then 1 else 1 + numDigits (n / 10)
termination_by n
decreasing_by exact Nat.div_lt_self (by omega) (by omega)

theorem numDigits_pos (n : Nat) : 1 ≤ numDigits n := by
  unfold numDigits; split <;> omega

theorem numDigits_lt (n : Nat) (h : n < 10) : numDigits n = 1 := by
  unfold numDigits; simp [h]

theorem numDigits_ge (n : Nat) (h : ¬ n < 10) : numDigits n = 1 + numDigits (n / 10) := by
  conv_lhs => rw [numDigits]
  simp [h]

theorem numDigits_le (n : Nat) : numDigits n ≤ n + 1 := by
  induction n using Nat.strong_induction_on with
  | _ n ih =>
    by_cases h : n < 10
    · rw [numDigits_lt n h]; omega
    · rw [numDigits_ge n h]
      have hlt : n / 10 < n := Nat.div_lt_self (by omega) (by omega)
      have := ih (n / 10) hlt
      omega

theorem digitChar_isDigit : ∀ d, d < 10 → (Nat.digitChar d).isDigit = true := by decide

theorem digitVal_digitChar : ∀ d, d < 10 → digitVal (Nat.digitChar d) = d := by decide

theorem digitChar_ne : ∀ d, d < 10 →
    Nat.digitChar d ≠ ' ' ∧ Nat.digitChar d ≠ '"' ∧ Nat.digitChar d ≠ '[' ∧
    Nat.digitChar d ≠ '{' ∧ Nat.digitChar d ≠ '-' ∧ Nat.digitChar d ≠ ']' ∧
    Nat.digitChar d ≠ '}' := by decide

/-- `headNotDigit l` holds when `l` does not begin with a decimal digit, so a
maximal-munch number parse that ends right before `l` is not extended. -/
def headNotDigit : List Char → Bool
  | [] => true
  | c :: _ => !c.isDigit

theorem parseNatAux_stop (l : List Char) (m : Nat) (h : headNotDigit l = true) :
    parseNatAux l m = (m, l) := by
  cases l with
  | nil => simp [parseNatAux]
  | cons c cs =>
    simp only [headNotDigit, Bool.not_eq_true'] at h
    simp [parseNatAux, h]

theorem natCharsAux_acc (f : Nat) :
    ∀ n acc, natCharsAux f n acc = natCharsAux f n [] ++ acc := by
  induction f with
  | zero => intro n acc; simp [natCharsAux]
  | succ f ih =>
    intro n acc
    by_cases h : n < 10
    · simp [natCharsAux, h]
    · simp only [natCharsAux, h, if_false]
      rw [ih (n / 10) (Nat.digitChar (n % 10) :: acc),
          ih (n / 10) (Nat.digitChar (n % 10) :: [])]
      simp

theorem parseNatAux_natCharsAux (f : Nat) :
    ∀ n acc m, numDigits n ≤ f →
      parseNatAux (natCharsAux f n acc) m = parseNatAux acc (m * 10 ^ numDigits n + n) := by
  induction f with
  | zero => intro n acc m h; have := numDigits_pos n; omega
  | succ f ih =>
    intro n acc m h
    by_cases hn : n < 10
    · have h1 := digitChar_isDigit n hn
      have h2 := digitVal_digitChar n hn
      simp only [natCharsAux, hn, if_true, parseNatAux, h1, if_pos, h2,
        numDigits_lt n hn, pow_one]
    · have hd : numDigits (n / 10) ≤ f := by
        have := numDigits_ge n hn; omega
      have h10 : n % 10 < 10 := Nat.mod_lt _ (by omega)
      have h1 := digitChar_isDigit (n % 10) h10
      have h2 := digitVal_digitChar (n % 10) h10
      simp only [natCharsAux, hn, if_false]
      rw [ih (n / 10) (Nat.digitChar (n % 10) :: acc) m hd]
      simp only [parseNatAux, h1, if_true, h2]
      rw [numDigits_ge n hn]
      congr 1
      have hpow : 10 ^ (1 + numDigits (n / 10)) = 10 ^ numDigits (n / 10) * 10 := by
        rw [Nat.add_comm, Nat.pow_succ]
      rw [hpow]
      have harith : (m * 10 ^ numDigits (n / 10) + n / 10) * 10 + n % 10
          = m * (10 ^ numDigits (n / 10) * 10) + (10 * (n / 10) + n % 10) := by ring
      rw [harith, Nat.div_add_mod]

theorem parseNatAux_natChars (n : Nat) (rest : List Char) (h : headNotDigit rest = true) :
    parseNatAux (natChars n ++ rest) 0 = (n, rest) := by
  have h0 : natChars n ++ rest = natCharsAux (n + 1) n rest := by
    rw [natChars, natCharsAux_acc (n + 1) n rest]
  rw [h0, parseNatAux_natCharsAux (n + 1) n rest 0 (numDigits_le n)]
  simp [parseNatAux_stop rest _ h]

theorem natCharsAux_head (f : Nat) :
    ∀ n acc, numDigits n ≤ f →
      ∃ d t, d < 10 ∧ natCharsAux f n acc = Nat.digitChar d :: t := by
  induction f with
  | zero => intro n acc h; have := numDigits_pos n; omega
  | succ f ih =>
    intro n acc h
    by_cases hn : n < 10
    · exact ⟨n, acc, hn, by simp [natCharsAux, hn]⟩
    · have hd : numDigits (n / 10) ≤ f := by
        have := numDigits_ge n hn; omega
      obtain ⟨d, t, hd10, ht⟩ := ih (n / 10) (Nat.digitChar (n % 10) :: acc) hd
      exact ⟨d, t, hd10, by simp [natCharsAux, hn, ht]⟩

theorem natChars_head (n : Nat) :
    ∃ d t, d < 10 ∧ natChars n = Nat.digitChar d :: t :=
  natCharsAux_head (n + 1) n [] (numDigits_le n)

theorem hexVal_digitChar : ∀ u, u < 16 → hexVal (Nat.digitChar u) = some u := by decide

theorem parseStrBody_escChars (s : List Char) :
    ∀ rest, parseStrBody (escChars s ++ '"' :: rest) = some (s, rest) := by
  induction s with
  | nil =>
    intro rest
    rw [show escChars [] ++ '"' :: rest = '"' :: rest by simp [escChars]]
    rw [parseStrBody.eq_def]
    simp
  | cons c cs ih =>
    intro rest
    by_cases h1 : c = '"'
    · subst h1
      rw [show escChars ('"' :: cs) ++ '"' :: rest
            = '\\' :: '"' :: (escChars cs ++ '"' :: rest) by simp [escChars, escChar]]
      rw [parseStrBody.eq_def]
      simp [unescChar, ih rest]
    · by_cases h2 : c = '\\'
      · subst h2
        rw [show escChars ('\\' :: cs) ++ '"' :: rest
              = '\\' :: '\\' :: (escChars cs ++ '"' :: rest) by simp [escChars, escChar]]
        rw [parseStrBody.eq_def]
        simp [unescChar, ih rest]
      · by_cases h3 : c = '\n'
        · subst h3
          rw [show escChars ('\n' :: cs) ++ '"' :: rest
                = '\\' :: 'n' :: (escChars cs ++ '"' :: rest) by simp [escChars, escChar]]
          rw [parseStrBody.eq_def]
          simp [unescChar, ih rest]
        · by_cases h4 : c = '\r'
          · subst h4
            rw [show escChars ('\r' :: cs) ++ '"' :: rest
                  = '\\' :: 'r' :: (escChars cs ++ '"' :: rest) by simp [escChars, escChar]]
            rw [parseStrBody.eq_def]
            simp [unescChar, ih rest]
          · by_cases h5 : c = '\t'
            · subst h5
              rw [show escChars ('\t' :: cs) ++ '"' :: rest
                    = '\\' :: 't' :: (escChars cs ++ '"' :: rest) by simp [escChars, escChar]]
              rw [parseStrBody.eq_def]
              simp [unescChar, ih rest]
            · by_cases h6 : c = Char.ofNat 8
              · subst h6
                rw [show escChars (Char.ofNat 8 :: cs) ++ '"' :: rest
                      = '\\' :: 'b' :: (escChars cs ++ '"' :: rest) by
                    simp [escChars, escChar]]
                rw [parseStrBody.eq_def]
                simp [unescChar, ih rest]
              · by_cases h7 : c = Char.ofNat 12
                · subst h7
                  rw [show escChars (Char.ofNat 12 :: cs) ++ '"' :: rest
                        = '\\' :: 'f' :: (escChars cs ++ '"' :: rest) by
                      simp [escChars, escChar]]
                  rw [parseStrBody.eq_def]
                  simp [unescChar, ih rest]
                · by_cases h8 : c.toNat < 32
                  · have hq : (((0 * 16 + 0) * 16 + c.toNat / 16) * 16 + c.toNat % 16)
                        = c.toNat := by omega
                    have hh1 : hexVal '0' = some 0 := by decide
                    have hh3 : hexVal (Nat.digitChar (c.toNat / 16)) = some (c.toNat / 16) :=
                      hexVal_digitChar _ (by omega)
                    have hh4 : hexVal (Nat.digitChar (c.toNat % 16)) = some (c.toNat % 16) :=
                      hexVal_digitChar _ (by omega)
                    rw [show escChars (c :: cs) ++ '"' :: rest
                          = '\\' :: 'u' :: '0' :: '0' :: Nat.digitChar (c.toNat / 16) ::
                              Nat.digitChar (c.toNat % 16) :: (escChars cs ++ '"' :: rest) by
                        simp [escChars, escChar, h1, h2, h3, h4, h5, h6, h7, h8]]
                    rw [parseStrBody.eq_def]
                    simp only [reduceIte, Char.reduceEq, hh1, hh3, hh4, ih rest,
                      Option.map_some]
                    rw [hq, Char.ofNat_toNat]
                    rfl
                  · rw [show escChars (c :: cs) ++ '"' :: rest
                          = c :: (escChars cs ++ '"' :: rest) by
                        simp [escChars, escChar, h1, h2, h3, h4, h5, h6, h7, h8]]
                    rw [parseStrBody.eq_def]
                    simp [h1, h2, ih rest]

theorem skipSpaces_cons (c : Char) (cs : List Char) (h : c ≠ ' ') :
    skipSpaces (c :: cs) = c :: cs := by
  simp [skipSpaces, h]

theorem dumpChars_head (j : Json) :
    ∃ c t, Json.dumpChars j = c :: t ∧ c ≠ ' ' ∧ c ≠ ']' ∧ c ≠ '}' := by
  cases j with
  | num n =>
    by_cases hn : n < 0
    · refine ⟨'-', natChars n.natAbs, ?_, ?_, ?_, ?_⟩
      · simp [Json.dumpChars, intChars, hn]
      all_goals decide
    · obtain ⟨d, t, hd10, ht⟩ := natChars_head n.natAbs
      have hne := digitChar_ne d hd10
      refine ⟨Nat.digitChar d, t, ?_, hne.1, hne.2.2.2.2.2.1, hne.2.2.2.2.2.2⟩
      simp [Json.dumpChars, intChars, hn, ht]
  | null =>
    refine ⟨'n', _, rfl, ?_, ?_, ?_⟩ <;> decide
  | bool b =>
    cases b with
    | false => refine ⟨'f', _, rfl, ?_, ?_, ?_⟩ <;> decide
    | true => refine ⟨'t', _, rfl, ?_, ?_, ?_⟩ <;> decide
  | str s =>
    refine ⟨'"', _, rfl, ?_, ?_, ?_⟩ <;> decide
  | arr xs =>
    refine ⟨'[', _, rfl, ?_, ?_, ?_⟩ <;> decide
  | obj kvs =>
    refine ⟨'{', _, rfl, ?_, ?_, ?_⟩ <;> decide

theorem skipSpaces_dump (j : Json) (r : List Char) :
    skipSpaces (Json.dumpChars j ++ r) = Json.dumpChars j ++ r := by
  obtain ⟨c, t, hct, hcs, _, _⟩ := dumpChars_head j
  rw [hct]
  exact skipSpaces_cons c (t ++ r) hcs

theorem dumpItems_head (x : Json) (xs : List Json) :
    ∃ c t, Json.dumpItems (x :: xs) = c :: t ∧ c ≠ ' ' ∧ c ≠ ']' := by
  obtain ⟨c, t, hct, hcs, hcb, _⟩ := dumpChars_head x
  cases xs with
  | nil => exact ⟨c, t, by simp [Json.dumpItems, hct], hcs, hcb⟩
  | cons y ys =>
    exact ⟨c, t ++ ',' :: ' ' :: Json.dumpItems (y :: ys),
      by simp [Json.dumpItems, hct], hcs, hcb⟩

theorem dumpFields_head (kv : String × Json) (kvs : List (String × Json)) :
    ∃ t, Json.dumpFields (kv :: kvs) = '"' :: t := by
  obtain ⟨k, v⟩ := kv
  cases kvs with
  | nil => exact ⟨_, rfl⟩
  | cons kv2 kvs2 => exact ⟨_, rfl⟩

theorem parseVal_intChars (f : Nat) (n : Int) (rest : List Char)
    (hrest : headNotDigit rest = true) :
    parseVal (f + 1) (intChars n ++ rest) = some (Json.num n, rest) := by
  have hp : parseNatAux (natChars n.natAbs ++ rest) 0 = (n.natAbs, rest) :=
    parseNatAux_natChars n.natAbs rest hrest
  obtain ⟨d, t, hd10, ht⟩ := natChars_head n.natAbs
  have hne := digitChar_ne d hd10
  have hdig := digitChar_isDigit d hd10
  have hp2 : parseNatAux (Nat.digitChar d :: (t ++ rest)) 0 = (n.natAbs, rest) := by
    rw [← List.cons_append, ← ht]; exact hp
  by_cases hn : n < 0
  · rw [show intChars n ++ rest = '-' :: (Nat.digitChar d :: (t ++ rest)) by
      simp [intChars, hn, ht]]
    rw [parseVal.eq_def]
    simp only [skipSpaces_cons '-' (Nat.digitChar d :: (t ++ rest)) (by decide),
      Char.reduceEq, reduceIte, hdig, if_true, hp2]
    have : -(n.natAbs : Int) = n := by omega
    rw [this]
  · rw [show intChars n ++ rest = Nat.digitChar d :: (t ++ rest) by
      simp [intChars, hn, ht]]
    rw [parseVal.eq_def]
    simp only [skipSpaces_cons (Nat.digitChar d) (t ++ rest) hne.1,
      hne.2.1, hne.2.2.1, hne.2.2.2.1, hne.2.2.2.2.1, hdig, if_true,
      if_false, ite_false, reduceIte, hp2]
    have : (n.natAbs : Int) = n := by omega
    rw [this]

theorem parse_dump_fuel (f : Nat) :
    (∀ j rest, Json.sizeJ j ≤ f → headNotDigit rest = true →
        parseVal f (Json.dumpChars j ++ rest) = some (j, rest))
  ∧ (∀ xs rest, xs ≠ [] → Json.sizeItems xs ≤ f →
        parseItems f (Json.dumpItems xs ++ ']' :: rest) = some (xs, rest))
  ∧ (∀ kvs rest, kvs ≠ [] → Json.sizeFields kvs ≤ f →
        parseFields f (Json.dumpFields kvs ++ '}' :: rest) = some (kvs, rest)) := by
  induction f with
  | zero =>
    refine ⟨?_, ?_, ?_⟩
    · intro j rest hsz _
      have := Json.sizeJ_pos j
      omega
    · intro xs rest hne hsz
      cases xs with
      | nil => exact absurd rfl hne
      | cons x xs' =>
        have := Json.sizeJ_pos x
        simp [Json.sizeItems] at hsz
    · intro kvs rest hne hsz
      cases kvs with
      | nil => exact absurd rfl hne
      | cons kv kvs' =>
        obtain ⟨k, v⟩ := kv
        have := Json.sizeJ_pos v
        simp [Json.sizeFields] at hsz
  | succ f ih =>
    obtain ⟨ihv, ihi, ihf⟩ := ih
    refine ⟨?_, ?_, ?_⟩
    · intro j rest hsz hrest
      cases j with
      | null =>
        rw [show Json.dumpChars Json.null ++ rest = 'n' :: 'u' :: 'l' :: 'l' :: rest by rfl]
        rw [parseVal.eq_def]
        simp [skipSpaces]
      | bool b =>
        cases b with
        | true =>
          rw [show Json.dumpChars (Json.bool true) ++ rest
                = 't' :: 'r' :: 'u' :: 'e' :: rest by rfl]
          rw [parseVal.eq_def]
          simp [skipSpaces]
        | false =>
          rw [show Json.dumpChars (Json.bool false) ++ rest
                = 'f' :: 'a' :: 'l' :: 's' :: 'e' :: rest by rfl]
          rw [parseVal.eq_def]
          simp [skipSpaces]
      | num n =>
        rw [show Json.dumpChars (Json.num n) = intChars n by rfl]
        exact parseVal_intChars f n rest hrest
      | str s =>
        rw [show Json.dumpChars (Json.str s) ++ rest
              = '"' :: (escChars s.data ++ '"' :: rest) by
            simp [Json.dumpChars]]
        rw [parseVal.eq_def]
        simp [skipSpaces, parseStrBody_escChars s.data rest]
      | arr xs =>
        cases xs with
        | nil =>
          rw [show Json.dumpChars (Json.arr []) ++ rest = '[' :: ']' :: rest by
            simp [Json.dumpChars, Json.dumpItems]]
          rw [parseVal.eq_def]
          simp [skipSpaces]
        | cons x xs' =>
          obtain ⟨c, t, hct, hcs, hcrb⟩ := dumpItems_head x xs'
          have hsz' : Json.sizeItems (x :: xs') ≤ f := by
            simp [Json.sizeJ] at hsz
            omega
          have hitems := ihi (x :: xs') rest (by simp) hsz'
          rw [show Json.dumpChars (Json.arr (x :: xs')) ++ rest
                = '[' :: (Json.dumpItems (x :: xs') ++ ']' :: rest) by
              simp [Json.dumpChars]]
          rw [parseVal.eq_def]
          simp only [skipSpaces_cons '[' (Json.dumpItems (x :: xs') ++ ']' :: rest)
            (by decide), Char.reduceEq, reduceIte]
          rw [show Json.dumpItems (x :: xs') ++ ']' :: rest = c :: (t ++ ']' :: rest) by
            simp [hct]]
          simp only [skipSpaces_cons c (t ++ ']' :: rest) hcs, if_neg hcrb]
          rw [show c :: (t ++ ']' :: rest) = Json.dumpItems (x :: xs') ++ ']' :: rest by
            simp [hct]]
          rw [hitems]
          rfl
      | obj kvs =>
        cases kvs with
        | nil =>
          rw [show Json.dumpChars (Json.obj []) ++ rest = '{' :: '}' :: rest by
            simp [Json.dumpChars, Json.dumpFields]]
          rw [parseVal.eq_def]
          simp [skipSpaces]
        | cons kv kvs' =>
          obtain ⟨t, hct⟩ := dumpFields_head kv kvs'
          have hsz' : Json.sizeFields (kv :: kvs') ≤ f := by
            simp [Json.sizeJ] at hsz
            omega
          have hfields := ihf (kv :: kvs') rest (by simp) hsz'
          rw [show Json.dumpChars (Json.obj (kv :: kvs')) ++ rest
                = '{' :: (Json.dumpFields (kv :: kvs') ++ '}' :: rest) by
              simp [Json.dumpChars]]
          rw [parseVal.eq_def]
          simp only [skipSpaces_cons '{' (Json.dumpFields (kv :: kvs') ++ '}' :: rest)
            (by decide), Char.reduceEq, reduceIte]
          rw [show Json.dumpFields (kv :: kvs') ++ '}' :: rest
                = '"' :: (t ++ '}' :: rest) by simp [hct]]
          simp only [skipSpaces_cons '"' (t ++ '}' :: rest) (by decide), Char.reduceEq,
            reduceIte]
          rw [show ('"' : Char) :: (t ++ '}' :: rest)
                = Json.dumpFields (kv :: kvs') ++ '}' :: rest by simp [hct]]
          rw [hfields]
          rfl
    · intro xs rest hne hsz
      cases xs with
      | nil => exact absurd rfl hne
      | cons x xs' =>
        have hx : Json.sizeJ x ≤ f := by
          simp [Json.sizeItems] at hsz
          omega
        cases xs' with
        | nil =>
          have hv := ihv x (']' :: rest) hx rfl
          rw [show Json.dumpItems [x] ++ ']' :: rest = Json.dumpChars x ++ ']' :: rest by
            simp [Json.dumpItems]]
          rw [parseItems.eq_def]
          simp only [hv]
          simp [skipSpaces]
        | cons y ys =>
          have hys : Json.sizeItems (y :: ys) ≤ f := by
            simp only [Json.sizeItems] at hsz ⊢
            omega
          obtain ⟨c2, t2, hct2, hcs2, _⟩ := dumpItems_head y ys
          have hv := ihv x (',' :: ' ' :: (Json.dumpItems (y :: ys) ++ ']' :: rest)) hx rfl
          have hi := ihi (y :: ys) rest (by simp) hys
          rw [show Json.dumpItems (x :: y :: ys) ++ ']' :: rest
                = Json.dumpChars x
                    ++ (',' :: ' ' :: (Json.dumpItems (y :: ys) ++ ']' :: rest)) by
              simp [Json.dumpItems]]
          rw [parseItems.eq_def]
          simp only [hv]
          simp only [skipSpaces_cons ','
            (' ' :: (Json.dumpItems (y :: ys) ++ ']' :: rest)) (by decide),
            Char.reduceEq, reduceIte]
          rw [show skipSpaces (' ' :: (Json.dumpItems (y :: ys) ++ ']' :: rest))
                = skipSpaces (Json.dumpItems (y :: ys) ++ ']' :: rest) by
              simp [skipSpaces]]
          rw [show Json.dumpItems (y :: ys) ++ ']' :: rest = c2 :: (t2 ++ ']' :: rest) by
            simp [hct2]]
          rw [skipSpaces_cons c2 (t2 ++ ']' :: rest) hcs2]
          rw [show c2 :: (t2 ++ ']' :: rest) = Json.dumpItems (y :: ys) ++ ']' :: rest by
            simp [hct2]]
          rw [hi]
    · intro kvs rest hne hsz
      cases kvs with
      | nil => exact absurd rfl hne
      | cons kv kvs' =>
        obtain ⟨k, v⟩ := kv
        have hv : Json.sizeJ v ≤ f := by
          simp [Json.sizeFields] at hsz
          omega
        cases kvs' with
        | nil =>
          have hval := ihv v ('}' :: rest) hv rfl
          have hss : skipSpaces (' ' :: (Json.dumpChars v ++ '}' :: rest))
              = Json.dumpChars v ++ '}' :: rest := by
            rw [show skipSpaces (' ' :: (Json.dumpChars v ++ '}' :: rest))
                  = skipSpaces (Json.dumpChars v ++ '}' :: rest) by simp [skipSpaces]]
            exact skipSpaces_dump v _
          rw [show Json.dumpFields [(k, v)] ++ '}' :: rest
                = '"' :: (escChars k.data
                    ++ '"' :: (':' :: ' ' :: (Json.dumpChars v ++ '}' :: rest))) by
              simp [Json.dumpFields]]
          rw [parseFields.eq_def]
          simp only [Char.reduceEq, reduceIte,
            parseStrBody_escChars k.data (':' :: ' ' :: (Json.dumpChars v ++ '}' :: rest))]
          simp only [skipSpaces_cons ':' (' ' :: (Json.dumpChars v ++ '}' :: rest))
            (by decide), Char.reduceEq, reduceIte, hss, hval]
          simp [skipSpaces]
        | cons kv2 kvs2 =>
          have hkvs : Json.sizeFields (kv2 :: kvs2) ≤ f := by
            simp only [Json.sizeFields] at hsz ⊢
            omega
          obtain ⟨t2, hct2⟩ := dumpFields_head kv2 kvs2
          have hval := ihv v
            (',' :: ' ' :: (Json.dumpFields (kv2 :: kvs2) ++ '}' :: rest)) hv rfl
          have hflds := ihf (kv2 :: kvs2) rest (by simp) hkvs
          have hss : skipSpaces (' ' :: (Json.dumpChars v
                ++ ',' :: ' ' :: (Json.dumpFields (kv2 :: kvs2) ++ '}' :: rest)))
              = Json.dumpChars v
                ++ ',' :: ' ' :: (Json.dumpFields (kv2 :: kvs2) ++ '}' :: rest) := by
            rw [show skipSpaces (' ' :: (Json.dumpChars v
                  ++ ',' :: ' ' :: (Json.dumpFields (kv2 :: kvs2) ++ '}' :: rest)))
                  = skipSpaces (Json.dumpChars v
                      ++ ',' :: ' ' :: (Json.dumpFields (kv2 :: kvs2) ++ '}' :: rest)) by
                simp [skipSpaces]]
            exact skipSpaces_dump v _
          rw [show Json.dumpFields ((k, v) :: kv2 :: kvs2) ++ '}' :: rest
                = '"' :: (escChars k.data ++ '"' :: (':' :: ' ' :: (Json.dumpChars v
                    ++ ',' :: ' ' :: (Json.dumpFields (kv2 :: kvs2) ++ '}' :: rest)))) by
              simp [Json.dumpFields]]
          rw [parseFields.eq_def]
          simp only [Char.reduceEq, reduceIte,
            parseStrBody_escChars k.data (':' :: ' ' :: (Json.dumpChars v
              ++ ',' :: ' ' :: (Json.dumpFields (kv2 :: kvs2) ++ '}' :: rest)))]
          simp only [skipSpaces_cons ':' (' ' :: (Json.dumpChars v
            ++ ',' :: ' ' :: (Json.dumpFields (kv2 :: kvs2) ++ '}' :: rest)))
            (by decide), Char.reduceEq, reduceIte, hss, hval]
          simp only [skipSpaces_cons ','
            (' ' :: (Json.dumpFields (kv2 :: kvs2) ++ '}' :: rest)) (by decide),
            Char.reduceEq, reduceIte]
          rw [show skipSpaces (' ' :: (Json.dumpFields (kv2 :: kvs2) ++ '}' :: rest))
                = skipSpaces (Json.dumpFields (kv2 :: kvs2) ++ '}' :: rest) by
              simp [skipSpaces]]
          rw [show Json.dumpFields (kv2 :: kvs2) ++ '}' :: rest
                = '"' :: (t2 ++ '}' :: rest) by simp [hct2]]
          rw [skipSpaces_cons '"' (t2 ++ '}' :: rest) (by decide)]
          rw [show ('"' : Char) :: (t2 ++ '}' :: rest)
                = Json.dumpFields (kv2 :: kvs2) ++ '}' :: rest by simp [hct2]]
          rw [hflds]

theorem sizeJ_le_dump_fuel (f : Nat) :
    (∀ j, Json.sizeJ j ≤ f → Json.sizeJ j ≤ (Json.dumpChars j).length)
  ∧ (∀ xs, Json.sizeItems xs ≤ f →
      Json.sizeItems xs ≤ (Json.dumpItems xs).length + 1)
  ∧ (∀ kvs, Json.sizeFields kvs ≤ f →
      Json.sizeFields kvs ≤ (Json.dumpFields kvs).length + 1) := by
  induction f with
  | zero =>
    refine ⟨?_, ?_, ?_⟩
    · intro j hsz
      have := Json.sizeJ_pos j
      omega
    · intro xs hsz
      cases xs with
      | nil => simp [Json.sizeItems]
      | cons x xs' =>
        have := Json.sizeJ_pos x
        simp [Json.sizeItems] at hsz
    · intro kvs hsz
      cases kvs with
      | nil => simp [Json.sizeFields]
      | cons kv kvs' =>
        obtain ⟨k, v⟩ := kv
        have := Json.sizeJ_pos v
        simp [Json.sizeFields] at hsz
  | succ f ih =>
    obtain ⟨ihv, ihi, ihf⟩ := ih
    refine ⟨?_, ?_, ?_⟩
    · intro j hsz
      cases j with
      | null => simp [Json.sizeJ, Json.dumpChars]
      | bool b => cases b <;> simp [Json.sizeJ, Json.dumpChars]
      | num n =>
        obtain ⟨d, t, _, ht⟩ := natChars_head n.natAbs
        by_cases hn : n < 0 <;>
          simp [Json.sizeJ, Json.dumpChars, intChars, hn, ht]
      | str s => simp [Json.sizeJ, Json.dumpChars]
      | arr xs =>
        have hx : Json.sizeItems xs ≤ f := by
          simp only [Json.sizeJ] at hsz
          omega
        have := ihi xs hx
        simp only [Json.sizeJ, Json.dumpChars, List.length_cons, List.length_append,
          List.length_singleton]
        omega
      | obj kvs =>
        have hx : Json.sizeFields kvs ≤ f := by
          simp only [Json.sizeJ] at hsz
          omega
        have := ihf kvs hx
        simp only [Json.sizeJ, Json.dumpChars, List.length_cons, List.length_append,
          List.length_singleton]
        omega
    · intro xs hsz
      cases xs with
      | nil => simp [Json.sizeItems]
      | cons x xs' =>
        have hx : Json.sizeJ x ≤ f := by
          simp only [Json.sizeItems] at hsz
          omega
        have h1 := ihv x hx
        cases xs' with
        | nil =>
          simp only [Json.sizeItems, Json.dumpItems]
          omega
        | cons y ys =>
          have hys : Json.sizeItems (y :: ys) ≤ f := by
            simp only [Json.sizeItems] at hsz ⊢
            omega
          have h2 := ihi (y :: ys) hys
          simp only [Json.sizeItems, Json.dumpItems, List.length_append,
            List.length_cons] at h2 ⊢
          omega
    · intro kvs hsz
      cases kvs with
      | nil => simp [Json.sizeFields]
      | cons kv kvs' =>
        obtain ⟨k, v⟩ := kv
        have hv : Json.sizeJ v ≤ f := by
          simp only [Json.sizeFields] at hsz
          omega
        have h1 := ihv v hv
        cases kvs' with
        | nil =>
          simp only [Json.sizeFields, Json.dumpFields, List.length_cons,
            List.length_append]
          omega
        | cons kv2 kvs2 =>
          have hkvs : Json.sizeFields (kv2 :: kvs2) ≤ f := by
            simp only [Json.sizeFields] at hsz ⊢
            omega
          have h2 := ihf (kv2 :: kvs2) hkvs
          simp only [Json.sizeFields, Json.dumpFields, List.length_cons,
            List.length_append] at h2 ⊢
          omega

theorem sizeJ_le_dumpLength (j : Json) :
    Json.sizeJ j ≤ (Json.dumpChars j).length :=
  (sizeJ_le_dump_fuel (Json.sizeJ j)).1 j (Nat.le_refl _)

/-- Round trip of the `json.dumps` model: parsing the serialization of any
JSON value recovers that value exactly. -/
theorem Json.parse_dumps (j : Json) : Json.parse (Json.dumps j) = some j := by
  have hfuel : Json.sizeJ j ≤ (Json.dumpChars j).length + 1 := by
    have := sizeJ_le_dumpLength j
    omega
  have h := (parse_dump_fuel ((Json.dumpChars j).length + 1)).1 j [] hfuel rfl
  rw [List.append_nil] at h
  rw [Json.parse]
  rw [show (Json.dumps j).data = Json.dumpChars j from rfl]
  rw [h]
  simp [skipSpaces]

/-- Python values that occur as tool-call arguments in this system. -/
inductive PyVal where
  | str (s : String)
  | int (n : Int)
  | list (xs : List PyVal)
  | none

mutual

/-- Models Python `str()` on argument values: strings pass through, integers
render in decimal, `None` renders as `"None"`, and lists render with
comma-space separators (list elements are rendered by `str` rather than
`repr`, which agrees on the integer elements the handlers map `str` over). -/
def PyVal.toStr : PyVal → String
  | .str s => s
  | .int n => String.mk (intChars n)
  | .none => "None"
  | .list xs => "[" ++ PyVal.listStr xs ++ "]"

/-- Comma-space separated rendering of list elements for `PyVal.toStr`. -/
def PyVal.listStr : List PyVal → String
  | [] => ""
  | [x] => PyVal.toStr x
  | x :: xs => PyVal.toStr x ++ ", " ++ PyVal.listStr xs

end

/-- One ASCII apostrophe: the quoting Python `repr` puts around the missing
key in the message of a `KeyError`. -/
def squote : String := String.mk [Char.ofNat 39]

/-- A Python dict of tool-call arguments, as an insertion-ordered
association list. -/
def ArgDict := List (String × PyVal)

/-- Python `d[k]`: the value when the key is present, otherwise the
`KeyError` whose `str()` is the quoted key. -/
def dictGet (d : ArgDict) (k : String) : Except String PyVal :=
  match List.lookup k d with
  | some v => Except.ok v
  | Option.none => Except.error (squote ++ k ++ squote)

/-- Python `d.get(k, default)`. -/
def dictGetD (d : ArgDict) (k : String) (dflt : PyVal) : PyVal :=
  match List.lookup k d with
  | some v => v
  | Option.none => dflt

/-- The wire content block, `TextContent(type="text", text=...)` in the
source.  The source field name `type` is a Lean keyword and is rendered here
as `kind`. -/
structure ContentBlock where
  kind : String
  text : String
deriving DecidableEq

/-- Construction of an `mcp.types.TextContent` as the source performs it. -/
def TextContent (text : String) : ContentBlock := ⟨"text", text⟩

/-- HTTP method of a request issued by a handler. -/
inductive HttpMethod where
  | get
  | post
deriving DecidableEq

/-- One HTTP request issued through the `httpx` client: method, url, query
parameters, and multipart file fields (field name, filename, bytes,
content type). -/
structure HttpRequest where
  method : HttpMethod
  url : String
  params : List (String × PyVal)
  files : List (String × String × List Nat × String)

/-- An HTTP response as the handlers observe it: status code and raw body. -/
structure HttpResponse where
  status : Nat
  body : String

/-- The oracle for the effects a handler performs: `send` is the `httpx`
client (an `Except.error` is a raised transport exception carrying its
message), `fileRead` is `open(path, "rb")` followed by reading (an
`Except.error` is a raised `OSError`, e.g. `FileNotFoundError`, carrying
its message). -/
structure World where
  send : HttpRequest → Except String HttpResponse
  fileRead : String → Except String (List Nat)

/-- The `httpx` success test used by `Response.raise_for_status`: a 2xx
status code. -/
def isSuccessStatus (status : Nat) : Bool := decide (200 ≤ status) && decide (status < 300)

/-- Models the message text of the `httpx.HTTPStatusError` raised by
`Response.raise_for_status` on a non-2xx response. -/
def statusErrorMsg (status : Nat) (url : String) : String :=
  "HTTP status error " ++ String.mk (natChars status) ++ " for url " ++ url

/-- Models the message text of the `json.JSONDecodeError` raised by
`Response.json()` when the body is not valid JSON. -/
def jsonDecodeErrorMsg : String := "Expecting value: line 1 column 1 (char 0)"

/-- Models the message text of the `TypeError` raised by
`map(str, args["fdc_ids"])` when the argument is not iterable. -/
def notIterableMsg : String := "object is not iterable"

/-- Models the message text of the `TypeError` raised by `open` when the
path argument is not a string. -/
def badPathTypeMsg : String := "expected str, bytes or os.PathLike object"

/-- Configuration constant `BACKEND_URL` from the source. -/
def BACKEND_URL : String := "http://localhost:8004"

/-- The one GET request `_search_foods` issues:
`GET {BACKEND_URL}/api/search` with the query forwarded as `food_name`. -/
def search_request (q : PyVal) : HttpRequest :=
  { method := HttpMethod.get
    url := BACKEND_URL ++ "/api/search"
    params := [("food_name", q)]
    files := [] }

/-- The one GET request `_get_food_details` issues:
`GET {BACKEND_URL}/api/food/{fdc_id}` with the `format` parameter. -/
def food_details_request (fdcId : PyVal) (fmt : PyVal) : HttpRequest :=
  { method := HttpMethod.get
    url := BACKEND_URL ++ "/api/food/" ++ fdcId.toStr
    params := [("format", fmt)]
    files := [] }

/-- The one GET request `_get_multiple_foods` issues:
`GET {BACKEND_URL}/api/foods` with the joined ids and the `format`
parameter. -/
def multiple_foods_request (joined : String) (fmt : PyVal) : HttpRequest :=
  { method := HttpMethod.get
    url := BACKEND_URL ++ "/api/foods"
    params := [("fdcIds", PyVal.str joined), ("format", fmt)]
    files := [] }

/-- The one POST request `_classify` issues:
`POST {BACKEND_URL}/api/classify` with the file bytes as the multipart form
field `"file"` (filename is the image path, content type `image/jpeg`). -/
def classify_request (path : String) (bytes : List Nat) : HttpRequest :=
  { method := HttpMethod.post
    url := BACKEND_URL ++ "/api/classify"
    params := []
    files := [("file", path, bytes, "image/jpeg")] }

/-- The shared handler tail: `response.raise_for_status()`, then
`result = response.json()`, then `[TextContent(type="text",
text=json.dumps(result))]`.  A non-2xx status raises the `HTTPStatusError`
and an unparsable body raises the `JSONDecodeError`; both surface as
`Except.error` carrying the exception text. -/
def respondJson (url : String) (resp : HttpResponse) : Except String (List ContentBlock) :=
  if isSuccessStatus resp.status then
    match Json.parse resp.body with
    | some j => Except.ok [TextContent (Json.dumps j)]
    | Option.none => Except.error jsonDecodeErrorMsg
  else Except.error (statusErrorMsg resp.status url)

/-- The `_search_foods` handler.  Returns the handler outcome together with
the trace of HTTP requests it issued. -/
def _search_foods (w : World) (args : ArgDict) :
    Except String (List ContentBlock) × List HttpRequest :=
  match dictGet args "query" with
  | .error e => (.error e, [])
  | .ok q =>
    let req := search_request q
    match w.send req with
    | .error e => (.error e, [req])
    | .ok resp => (respondJson req.url resp, [req])

/-- The `_get_food_details` handler: requires `fdc_id`, defaults `format`
to `"full"` via `args.get`. -/
def _get_food_details (w : World) (args : ArgDict) :
    Except String (List ContentBlock) × List HttpRequest :=
  match dictGet args "fdc_id" with
  | .error e => (.error e, [])
  | .ok fdcId =>
    let fmt := dictGetD args "format" (PyVal.str "full")
    let req := food_details_request fdcId fmt
    match w.send req with
    | .error e => (.error e, [req])
    | .ok resp => (respondJson req.url resp, [req])

/-- The `_get_multiple_foods` handler: requires `fdc_ids` (a list, joined
with commas after mapping `str`), defaults `format` to `"full"`. -/
def _get_multiple_foods (w : World) (args : ArgDict) :
    Except String (List ContentBlock) × List HttpRequest :=
  match dictGet args "fdc_ids" with
  | .error e => (.error e, [])
  | .ok v =>
    match v with
    | .list xs =>
      let joined := String.intercalate "," (xs.map PyVal.toStr)
      let fmt := dictGetD args "format" (PyVal.str "full")
      let req := multiple_foods_request joined fmt
      match w.send req with
      | .error e => (.error e, [req])
      | .ok resp => (respondJson req.url resp, [req])
    | _ => (.error notIterableMsg, [])

/-- The `_classify` handler: requires `image_path`, opens the file locally
and posts its bytes as multipart form data. -/
def _classify (w : World) (args : ArgDict) :
    Except String (List ContentBlock) × List HttpRequest :=
  match dictGet args "image_path" with
  | .error e => (.error e, [])
  | .ok p =>
    match p with
    | .str path =>
      match w.fileRead path with
      | .error e => (.error e, [])
      | .ok bytes =>
        let req := classify_request path bytes
        match w.send req with
        | .error e => (.error e, [req])
        | .ok resp => (respondJson req.url resp, [req])
    | _ => (.error badPathTypeMsg, [])

/-- An MCP resource catalog entry. -/
structure McpResource where
  uri : String
  name : String
  description : String
  mimeType : String
deriving DecidableEq

/-- `handle_list_resources`: the two static resource entries. -/
def handle_list_resources : List McpResource :=
  [ { uri := "food://search"
      name := "Food Search"
      description := "Search for foods in USDA database"
      mimeType := "application/json" },
    { uri := "food://details"
      name := "Food Details"
      description := "Get detailed food information"
      mimeType := "application/json" } ]

/-- `handle_read_resource`: an instruction string for the two known URIs, a
raised `ValueError` (the `Except.error`) for every other URI. -/
def handle_read_resource (uri : String) : Except String String :=
  if uri = "food://search" then
    Except.ok "Use the search_foods tool to search for foods"
  else if uri = "food://details" then
    Except.ok "Use the get_food_details tool to get food information"
  else Except.error ("Unknown resource: " ++ uri)

/-- An MCP tool descriptor: name, description and JSON input schema. -/
structure Tool where
  name : String
  description : String
  inputSchema : Json

/-- `handle_list_tools`: the static tool catalog.  The source defines the
`search_foods` and `classify` descriptors; the `get_food_details` and
`get_multiple_foods` descriptors are commented out in the source and are
therefore absent here. -/
def handle_list_tools : List Tool :=
  [ { name := "search_foods"
      description := "Search for foods in the USDA FoodData Central database"
      inputSchema := Json.obj
        [ ("type", Json.str "object"),
          ("properties", Json.obj
            [ ("query", Json.obj
                [ ("type", Json.str "string"),
                  ("description", Json.str "Search query for food items") ]) ]),
          ("required", Json.arr [Json.str "query"]) ] },
    { name := "classify"
      description :=
        "Classify a food image and return the predicted class and confidence score."
      inputSchema := Json.obj
        [ ("type", Json.str "object"),
          ("properties", Json.obj
            [ ("image_path", Json.obj
                [ ("type", Json.str "string"),
                  ("description", Json.str
                    "Path to the image file to classify. Must be accessible to the server.") ]) ]),
          ("required", Json.arr [Json.str "image_path"]) ] } ]

/-- The body of the `try` block of `handle_call_tool`: route the tool name
to its handler, or raise `ValueError("Unknown tool: <name>")` for any other
name. -/
def route_call (w : World) (name : String) (arguments : ArgDict) :
    Except String (List ContentBlock) × List HttpRequest :=
  if name = "search_foods" then _search_foods w arguments
  else if name = "get_food_details" then _get_food_details w arguments
  else if name = "get_multiple_foods" then _get_multiple_foods w arguments
  else if name = "classify" then _classify w arguments
  else (.error ("Unknown tool: " ++ name), [])

/-- `handle_call_tool`: the routed call wrapped in the blanket
`except Exception as e: return [TextContent(type="text",
text=f"Error: {str(e)}")]`. -/
def handle_call_tool (w : World) (name : String) (arguments : ArgDict) :
    List ContentBlock × List HttpRequest :=
  match route_call w name arguments with
  | (.ok blocks, trace) => (blocks, trace)
  | (.error e, trace) => ([TextContent ("Error: " ++ e)], trace)

/-- Models the 400 body produced by `flask_restx` `reqparse.parse_args`
when a required argument is absent from the query string. -/
def restxMissingArgBody (argName helpText : String) : Json :=
  Json.obj
    [ ("errors", Json.obj
        [ (argName, Json.str
            (helpText ++ " Missing required parameter in the query string")) ]),
      ("message", Json.str "Input payload validation failed") ]

/-- Models the 400 body produced by `flask_restx` `reqparse.parse_args`
when an argument fails type coercion or a `choices` check (the per-argument
error details are not modelled). -/
def restxBadArgBody : Json :=
  Json.obj [("message", Json.str "Input payload validation failed")]

/-- Models the 405 body Flask returns when a route's Resource does not
implement the requested HTTP method. -/
def methodNotAllowedBody : Json :=
  Json.obj [("message", Json.str "The method is not allowed for the requested URL.")]

/-- Models the coercion Python `int()` applies to an int-typed query
argument: an optional minus sign followed by decimal digits. -/
def parsePyInt (s : String) : Option Int :=
  match s.data with
  | [] => Option.none
  | '-' :: ds =>
    if ds.length > 0 && ds.all Char.isDigit then some (-((parseNatAux ds 0).1 : Int))
    else Option.none
  | ds =>
    if ds.all Char.isDigit then some (((parseNatAux ds 0).1 : Int))
    else Option.none

/-- A `flask_restx` `choices` check on an optional string argument: the
argument is valid when absent or when its value is among the choices. -/
def choiceOk (v : Option String) (choices : List String) : Bool :=
  match v with
  | Option.none => true
  | some s => choices.contains s

/-- Appends `(name, value)` to the USDA parameter list when the optional
argument is present, mirroring the `if args[...]` blocks of
`FoodSearch.get`.  An empty string is falsy in Python and is skipped. -/
def addOptParam (params : List (String × String)) (name : String)
    (v : Option String) : List (String × String) :=
  match v with
  | some s => if s = "" then params else params ++ [(name, s)]
  | Option.none => params

/-- The backend `/api/search` GET handler (`FoodSearch.get`).  `usda` is the
oracle for `make_usda_request` composed with `response.json()` (api-key
injection, the 30s timeout, and `raise_for_status` happen inside it; an
`Except.error` is a raised `requests.exceptions.RequestException`).  The
handler requires the query argument named `query`; `pageSize` and
`pageNumber` default to 50 and 1; `dataType`, `sortBy` and `sortOrder` are
validated against their `choices`.  Response reshaping by `marshal_with` is
not modelled (the argument-validation aborts happen before it). -/
def FoodSearch_get (usda : String → List (String × String) → Except String Json)
    (args : List (String × String)) : Nat × Json :=
  match List.lookup "query" args with
  | Option.none => (400, restxMissingArgBody "query" "Search query for food items")
  | some q =>
    let pageSizeR : Option Int := match List.lookup "pageSize" args with
      | Option.none => some 50
      | some s => parsePyInt s
    let pageNumberR : Option Int := match List.lookup "pageNumber" args with
      | Option.none => some 1
      | some s => parsePyInt s
    match pageSizeR, pageNumberR with
    | some pageSize, some pageNumber =>
      if choiceOk (List.lookup "dataType" args)
            ["Foundation", "SR Legacy", "Survey", "Branded"]
          && choiceOk (List.lookup "sortBy" args)
            ["dataType.keyword", "lowercaseDescription.keyword", "fdcId", "publishedDate"]
          && choiceOk (List.lookup "sortOrder" args) ["asc", "desc"] then
        if q = "" then (400, Json.obj [("error", Json.str "Query parameter is required")])
        else
          let params := [("query", q),
            ("pageSize", String.mk (intChars pageSize)),
            ("pageNumber", String.mk (intChars pageNumber))]
          let params := addOptParam params "dataType" (List.lookup "dataType" args)
          let params := addOptParam params "sortBy" (List.lookup "sortBy" args)
          let params := addOptParam params "sortOrder" (List.lookup "sortOrder" args)
          let params := addOptParam params "brandOwner" (List.lookup "brandOwner" args)
          match usda "foods/search" params with
          | .ok body => (200, body)
          | .error _ => (500, Json.obj [("error", Json.str "Failed to search foods")])
      else (400, restxBadArgBody)
    | _, _ => (400, restxBadArgBody)

/-- Outcome of the torch inference in `ImageClassify.get` (model loading,
preprocessing, prediction and the floating point confidence computation are
abstracted into this oracle): the 200 response body on success, a
`FileNotFoundError` from `load_classification_model`, or any other
exception message. -/
inductive PredictOutcome where
  | ok (body : Json)
  | modelMissing (msg : String)
  | failed (msg : String)

/-- The backend `/api/classify` GET handler (`ImageClassify.get`): requires
the query argument `image_path`, answers 400 when it is empty or the file
does not exist, 500 when the model is missing or prediction fails, and the
prediction body otherwise. -/
def ImageClassify_get (predict : String → PredictOutcome)
    (fileExists : String → Bool) (args : List (String × String)) : Nat × Json :=
  match List.lookup "image_path" args with
  | Option.none => (400, restxMissingArgBody "image_path" "Path to the image file to classify")
  | some p =>
    if p = "" then (400, Json.obj [("error", Json.str "image_path parameter is required")])
    else if !(fileExists p) then
      (400, Json.obj [("error", Json.str ("Image file not found: " ++ p))])
    else
      match predict p with
      | .ok body => (200, body)
      | .modelMissing _ => (500, Json.obj [("error", Json.str "Classification model not found")])
      | .failed msg => (500, Json.obj [("error", Json.str ("Classification failed: " ++ msg))])

/-- Flask method dispatch for the `/api/classify` route: the `ImageClassify`
Resource defines only `get`, so Flask answers 405 Method Not Allowed to any
other method, in particular to POST. -/
def classify_route (predict : String → PredictOutcome) (fileExists : String → Bool)
    (m : HttpMethod) (args : List (String × String)) : Nat × Json :=
  match m with
  | .get => ImageClassify_get predict fileExists args
  | .post => (405, methodNotAllowedBody)

/-- Field access on a JSON object, for stating schema properties. -/
def jsonField (j : Json) (k : String) : Option Json :=
  match j with
  | .obj kvs => List.lookup k kvs
  | _ => Option.none

theorem respondJson_shape (url : String) (resp : HttpResponse) :
    (∃ t, respondJson url resp = Except.ok [TextContent t]) ∨
    (∃ e, respondJson url resp = Except.error e) := by
  rw [respondJson]
  by_cases h : isSuccessStatus resp.status = true
  · simp only [h, if_true]
    cases hp : Json.parse resp.body with
    | some j => exact Or.inl ⟨Json.dumps j, rfl⟩
    | none => exact Or.inr ⟨jsonDecodeErrorMsg, rfl⟩
  · simp only [h, if_false]
    exact Or.inr ⟨statusErrorMsg resp.status url, rfl⟩

theorem search_foods_shape (w : World) (args : ArgDict) :
    (∃ t, (_search_foods w args).1 = Except.ok [TextContent t]) ∨
    (∃ e, (_search_foods w args).1 = Except.error e) := by
  rw [_search_foods.eq_def]
  cases dictGet args "query" with
  | error e => exact Or.inr ⟨e, rfl⟩
  | ok q =>
    simp only
    cases w.send (search_request q) with
    | error e => exact Or.inr ⟨e, rfl⟩
    | ok resp => exact respondJson_shape _ resp

theorem get_food_details_shape (w : World) (args : ArgDict) :
    (∃ t, (_get_food_details w args).1 = Except.ok [TextContent t]) ∨
    (∃ e, (_get_food_details w args).1 = Except.error e) := by
  rw [_get_food_details.eq_def]
  cases dictGet args "fdc_id" with
  | error e => exact Or.inr ⟨e, rfl⟩
  | ok fdcId =>
    simp only
    cases w.send (food_details_request fdcId (dictGetD args "format" (PyVal.str "full"))) with
    | error e => exact Or.inr ⟨e, rfl⟩
    | ok resp => exact respondJson_shape _ resp

theorem get_multiple_foods_shape (w : World) (args : ArgDict) :
    (∃ t, (_get_multiple_foods w args).1 = Except.ok [TextContent t]) ∨
    (∃ e, (_get_multiple_foods w args).1 = Except.error e) := by
  rw [_get_multiple_foods.eq_def]
  cases dictGet args "fdc_ids" with
  | error e => exact Or.inr ⟨e, rfl⟩
  | ok v =>
    simp only
    cases v with
    | list xs =>
      simp only
      cases w.send (multiple_foods_request
          (String.intercalate "," (xs.map PyVal.toStr))
          (dictGetD args "format" (PyVal.str "full"))) with
      | error e => exact Or.inr ⟨e, rfl⟩
      | ok resp => exact respondJson_shape _ resp
    | str s => exact Or.inr ⟨notIterableMsg, rfl⟩
    | int n => exact Or.inr ⟨notIterableMsg, rfl⟩
    | none => exact Or.inr ⟨notIterableMsg, rfl⟩

theorem classify_shape (w : World) (args : ArgDict) :
    (∃ t, (_classify w args).1 = Except.ok [TextContent t]) ∨
    (∃ e, (_classify w args).1 = Except.error e) := by
  rw [_classify.eq_def]
  cases dictGet args "image_path" with
  | error e => exact Or.inr ⟨e, rfl⟩
  | ok p =>
    simp only
    cases p with
    | str path =>
      simp only
      cases w.fileRead path with
      | error e => exact Or.inr ⟨e, rfl⟩
      | ok bytes =>
        simp only
        cases w.send (classify_request path bytes) with
        | error e => exact Or.inr ⟨e, rfl⟩
        | ok resp => exact respondJson_shape _ resp
    | int n => exact Or.inr ⟨badPathTypeMsg, rfl⟩
    | list xs => exact Or.inr ⟨badPathTypeMsg, rfl⟩
    | none => exact Or.inr ⟨badPathTypeMsg, rfl⟩

theorem route_call_shape (w : World) (name : String) (args : ArgDict) :
    (∃ t, (route_call w name args).1 = Except.ok [TextContent t]) ∨
    (∃ e, (route_call w name args).1 = Except.error e) := by
  rw [route_call]
  by_cases h1 : name = "search_foods"
  · simp only [h1, if_true]
    exact search_foods_shape w args
  · simp only [h1, if_false]
    by_cases h2 : name = "get_food_details"
    · simp only [h2, if_true]
      exact get_food_details_shape w args
    · simp only [h2, if_false]
      by_cases h3 : name = "get_multiple_foods"
      · simp only [h3, if_true]
        exact get_multiple_foods_shape w args
      · simp only [h3, if_false]
        by_cases h4 : name = "classify"
        · simp only [h4, if_true]
          exact classify_shape w args
        · simp only [h4, if_false]
          exact Or.inr ⟨"Unknown tool: " ++ name, rfl⟩

/-- C1.  For every tool name and every arguments dict, `handle_call_tool`
returns a sequence of exactly one ContentBlock of kind `"text"`; its
terminal behavior is total (the embedding of the dispatcher is a total
function, thanks to the blanket `except Exception` guard), both on handler
success and on every handler failure. -/
theorem C1_call_tool_always_one_text_block (w : World) (name : String)
    (args : ArgDict) :
    ∃ t, (handle_call_tool w name args).1 = [{ kind := "text", text := t }] := by
  rw [handle_call_tool]
  rcases route_call_shape w name args with ⟨t, ht⟩ | ⟨e, he⟩
  · refine ⟨t, ?_⟩
    rcases hr : route_call w name args with ⟨r1, r2⟩
    rw [hr] at ht
    simp only at ht
    rw [ht]
    rfl
  · refine ⟨"Error: " ++ e, ?_⟩
    rcases hr : route_call w name args with ⟨r1, r2⟩
    rw [hr] at he
    simp only at he
    rw [he]
    rfl

/-- A world whose every effect fails; dispatcher paths that error before
reaching an effect never consult it. -/
def failWorld : World :=
  { send := fun _ => Except.error "connection refused"
    fileRead := fun _ => Except.error "file error" }

/-- C2 counterexample: `get_food_details` is outside the catalog returned by
`handle_list_tools` (whose names are exactly `search_foods` and `classify`),
yet calling it does not produce an `"Error: Unknown tool:"` block — the
dispatcher routes it to its implemented handler, which here fails on the
missing `fdc_id` key, so the text is the `KeyError` message instead. -/
theorem C2_counterexample :
    (handle_list_tools.map Tool.name = ["search_foods", "classify"]) ∧
    "get_food_details" ∉ ["search_foods", "classify"] ∧
    (handle_call_tool failWorld "get_food_details" []).1
      = [TextContent ("Error: " ++ (squote ++ "fdc_id" ++ squote))] ∧
    ¬ (List.isPrefixOf ("Error: Unknown tool:").data
        ("Error: " ++ (squote ++ "fdc_id" ++ squote)).data = true) := by
  refine ⟨rfl, by decide, rfl, by decide⟩

/-- C2 (amended).  For every tool name outside the four names the dispatcher
routes (the two published catalog entries `search_foods` and `classify`
together with the two hidden handler names `get_food_details` and
`get_multiple_foods`), `handle_call_tool` returns exactly one text
ContentBlock whose text is `"Error: Unknown tool: "` followed by the
requested name — so the text starts with `"Error: Unknown tool:"`. -/
theorem C2_amended_unknown_tool_error (w : World) (name : String) (args : ArgDict)
    (h : name ∉ ["search_foods", "get_food_details", "get_multiple_foods", "classify"]) :
    (handle_call_tool w name args).1
      = [TextContent ("Error: " ++ ("Unknown tool: " ++ name))] ∧
    List.isPrefixOf ("Error: Unknown tool: ").data
      ("Error: " ++ ("Unknown tool: " ++ name)).data = true := by
  simp only [List.mem_cons, List.not_mem_nil, or_false, not_or] at h
  obtain ⟨h1, h2, h3, h4⟩ := h
  constructor
  · rw [handle_call_tool, route_call]
    simp only [if_neg h1, if_neg h2, if_neg h3, if_neg h4]
  · rw [List.isPrefixOf_iff_prefix]
    rw [String.data_append, String.data_append]
    rw [show ("Error: Unknown tool: ").data
          = ("Error: ").data ++ ("Unknown tool: ").data by decide]
    rw [← List.append_assoc]
    exact List.prefix_append _ _

/-- C2 amended witness at the concrete unknown name `frobnicate`. -/
theorem C2_amended_unknown_tool_error_witness :
    ("frobnicate" ∉ ["search_foods", "get_food_details", "get_multiple_foods", "classify"]) ∧
    (handle_call_tool failWorld "frobnicate" []).1
      = [TextContent ("Error: " ++ ("Unknown tool: " ++ "frobnicate"))] :=
  ⟨by decide, (C2_amended_unknown_tool_error failWorld "frobnicate" [] (by decide)).1⟩

/-- C3.  For every registered tool name, whenever the routed handler raises
an exception whose `str()` is `e`, `handle_call_tool` returns exactly one
text ContentBlock whose text is `"Error: " ++ e`; the dispatcher itself is a
total function, so nothing propagates to the serving loop. -/
theorem C3_handler_exception_to_error_block (w : World) (name : String)
    (args : ArgDict) (e : String)
    (hreg : name ∈ ["search_foods", "get_food_details", "get_multiple_foods", "classify"])
    (herr : (route_call w name args).1 = Except.error e) :
    (handle_call_tool w name args).1 = [TextContent ("Error: " ++ e)] := by
  rw [handle_call_tool]
  rcases hr : route_call w name args with ⟨r1, r2⟩
  rw [hr] at herr
  simp only at herr
  rw [herr]

/-- C3 witness: `classify` invoked without its required `image_path`
argument raises the `KeyError` and the dispatcher renders it as an
`"Error: ..."` text block. -/
theorem C3_handler_exception_to_error_block_witness :
    ("classify" ∈ ["search_foods", "get_food_details", "get_multiple_foods", "classify"]) ∧
    (route_call failWorld "classify" []).1
      = Except.error (squote ++ "image_path" ++ squote) ∧
    (handle_call_tool failWorld "classify" []).1
      = [TextContent ("Error: " ++ (squote ++ "image_path" ++ squote))] :=
  ⟨by decide, rfl,
    C3_handler_exception_to_error_block failWorld "classify" [] _ (by decide) rfl⟩

/-- C4.  Whenever the backend answers the search request with a 2xx status
and a body parsing to the JSON value `B`, `CallTool("search_foods", args)`
returns exactly one text ContentBlock whose text is the `json.dumps`
serialization of `B`, and parsing that text recovers `B` exactly. -/
theorem C4_search_success_roundtrip (w : World) (args : ArgDict) (q : PyVal)
    (resp : HttpResponse) (B : Json)
    (hq : dictGet args "query" = Except.ok q)
    (hsend : w.send (search_request q) = Except.ok resp)
    (hst : 200 ≤ resp.status ∧ resp.status < 300)
    (hbody : Json.parse resp.body = some B) :
    (handle_call_tool w "search_foods" args).1 = [TextContent (Json.dumps B)] ∧
    Json.parse (Json.dumps B) = some B := by
  constructor
  · have hroute : route_call w "search_foods" args = _search_foods w args := rfl
    have hsucc : isSuccessStatus resp.status = true := by
      simp only [isSuccessStatus, Bool.and_eq_true, decide_eq_true_eq]
      omega
    rw [handle_call_tool, hroute, _search_foods.eq_def, hq]
    simp only [hsend]
    rw [respondJson]
    simp only [hsucc, if_true, reduceIte, hbody]
  · exact Json.parse_dumps B

/-- The stubbed search body of the spec's acceptance test. -/
def searchBody0 : Json :=
  Json.obj
    [ ("totalHits", Json.num 1),
      ("foods", Json.arr
        [ Json.obj [("fdcId", Json.num 1), ("description", Json.str "Apple, raw")] ]) ]

/-- A stubbed backend answering HTTP 200 with `searchBody0` to every
request. -/
def okWorld : World :=
  { send := fun _ => Except.ok { status := 200, body := Json.dumps searchBody0 }
    fileRead := fun _ => Except.error "unused" }

/-- C4 witness at the spec's acceptance test input. -/
theorem C4_search_success_roundtrip_witness :
    dictGet [("query", PyVal.str "apple")] "query" = Except.ok (PyVal.str "apple") ∧
    okWorld.send (search_request (PyVal.str "apple"))
      = Except.ok { status := 200, body := Json.dumps searchBody0 } ∧
    ((200 : Nat) ≤ 200 ∧ (200 : Nat) < 300) ∧
    Json.parse (Json.dumps searchBody0) = some searchBody0 ∧
    (handle_call_tool okWorld "search_foods" [("query", PyVal.str "apple")]).1
      = [TextContent (Json.dumps searchBody0)] :=
  ⟨rfl, rfl, by decide, rfl,
    (C4_search_success_roundtrip okWorld [("query", PyVal.str "apple")]
      (PyVal.str "apple") { status := 200, body := Json.dumps searchBody0 }
      searchBody0 rfl rfl (by decide) rfl).1⟩

theorem call_tool_trace (w : World) (name : String) (args : ArgDict) :
    (handle_call_tool w name args).2 = (route_call w name args).2 := by
  rw [handle_call_tool]
  rcases route_call w name args with ⟨r1, r2⟩
  cases r1 <;> rfl

theorem search_foods_trace (w : World) (args : ArgDict) (q : PyVal)
    (h : dictGet args "query" = Except.ok q) :
    (_search_foods w args).2 = [search_request q] := by
  rw [_search_foods.eq_def, h]
  simp only
  cases w.send (search_request q) <;> rfl

theorem get_food_details_trace (w : World) (args : ArgDict) (fid : PyVal)
    (h : dictGet args "fdc_id" = Except.ok fid) :
    (_get_food_details w args).2
      = [food_details_request fid (dictGetD args "format" (PyVal.str "full"))] := by
  rw [_get_food_details.eq_def, h]
  simp only
  cases w.send (food_details_request fid (dictGetD args "format" (PyVal.str "full"))) <;> rfl

theorem multiple_foods_trace (w : World) (args : ArgDict) (xs : List PyVal)
    (h : dictGet args "fdc_ids" = Except.ok (PyVal.list xs)) :
    (_get_multiple_foods w args).2
      = [multiple_foods_request (String.intercalate "," (xs.map PyVal.toStr))
          (dictGetD args "format" (PyVal.str "full"))] := by
  rw [_get_multiple_foods.eq_def, h]
  simp only
  cases w.send (multiple_foods_request (String.intercalate "," (xs.map PyVal.toStr))
    (dictGetD args "format" (PyVal.str "full"))) <;> rfl

theorem classify_trace (w : World) (args : ArgDict) (path : String) (bytes : List Nat)
    (hp : dictGet args "image_path" = Except.ok (PyVal.str path))
    (hf : w.fileRead path = Except.ok bytes) :
    (_classify w args).2 = [classify_request path bytes] := by
  rw [_classify.eq_def, hp]
  simp only
  rw [hf]
  simp only
  cases w.send (classify_request path bytes) <;> rfl

/-- A USDA oracle that always fails; backend paths aborting before the
upstream call never consult it. -/
def usdaFail : String → List (String × String) → Except String Json :=
  fun _ _ => Except.error "no network"

/-- C5 counterexample: a backend `/api/search` request carrying only the
`food_name` parameter (exactly what `_search_foods` sends) is answered with
the 400 missing-required-parameter error for `query`, not with search-result
JSON. -/
theorem C5_counterexample :
    FoodSearch_get usdaFail [("food_name", "apple")]
      = (400, restxMissingArgBody "query" "Search query for food items") ∧
    (FoodSearch_get usdaFail [("food_name", "apple")]).1 ≠ 200 :=
  ⟨rfl, by decide⟩

/-- C5 (amended).  For every query argument `q`, the `search_foods` handler
performs exactly one GET request to `{backend}/api/search` carrying `q`
under the parameter name `food_name`; the backend `/api/search` endpoint,
however, requires its search string under the parameter name `query`: a
request without `query` gets the 400 missing-parameter error (so one
supplying only `food_name` does not get search-result JSON), while a request
supplying `query` reaches the USDA upstream and yields its body on
success. -/
theorem C5_amended_food_name_query_mismatch (w : World) (args : ArgDict) (q : PyVal)
    (hq : dictGet args "query" = Except.ok q) :
    (_search_foods w args).2 = [search_request q] ∧
    search_request q
      = { method := HttpMethod.get
          url := "http://localhost:8004/api/search"
          params := [("food_name", q)]
          files := [] } ∧
    (∀ usda params, List.lookup "query" params = Option.none →
      FoodSearch_get usda params
        = (400, restxMissingArgBody "query" "Search query for food items")) ∧
    (∀ usda qs body,
      usda "foods/search" [("query", qs), ("pageSize", "50"), ("pageNumber", "1")]
        = Except.ok body →
      qs ≠ "" →
      FoodSearch_get usda [("query", qs)] = (200, body)) := by
  refine ⟨search_foods_trace w args q hq, rfl, ?_, ?_⟩
  · intro usda params hnone
    rw [FoodSearch_get.eq_def, hnone]
  · intro usda qs body hu hqs
    have hred : FoodSearch_get usda [("query", qs)]
        = if qs = "" then (400, Json.obj [("error", Json.str "Query parameter is required")])
          else
            match usda "foods/search"
                [("query", qs), ("pageSize", "50"), ("pageNumber", "1")] with
            | .ok b => (200, b)
            | .error _ => (500, Json.obj [("error", Json.str "Failed to search foods")]) :=
      rfl
    rw [hred, if_neg hqs, hu]

/-- C5 witness: the handler trace at a concrete query, and the backend 400
at a concrete `food_name`-only request. -/
theorem C5_amended_food_name_query_mismatch_witness :
    dictGet [("query", PyVal.str "apple")] "query" = Except.ok (PyVal.str "apple") ∧
    (_search_foods failWorld [("query", PyVal.str "apple")]).2
      = [search_request (PyVal.str "apple")] ∧
    FoodSearch_get usdaFail [("food_name", "x")]
      = (400, restxMissingArgBody "query" "Search query for food items") :=
  ⟨rfl,
    (C5_amended_food_name_query_mismatch failWorld
      [("query", PyVal.str "apple")] (PyVal.str "apple") rfl).1,
    (C5_amended_food_name_query_mismatch failWorld
      [("query", PyVal.str "apple")] (PyVal.str "apple") rfl).2.2.1
      usdaFail [("food_name", "x")] rfl⟩

/-- An inference oracle that always fails; routes answered before inference
never consult it. -/
def predictFail : String → PredictOutcome := fun _ => PredictOutcome.failed "unused"

/-- C6 counterexample: the backend `/api/classify` route answers 405 Method
Not Allowed to a POST (its Resource implements only `get`), so it does not
accept the multipart POST the classify handler sends. -/
theorem C6_counterexample :
    classify_route predictFail (fun _ => true) HttpMethod.post []
      = (405, methodNotAllowedBody) ∧
    (classify_route predictFail (fun _ => true) HttpMethod.post []).1 ≠ 200 :=
  ⟨rfl, by decide⟩

/-- C6 (amended).  For every readable image path, the classify handler
performs exactly one POST request to `{backend}/api/classify` with the file
bytes as the multipart form field `file`; the backend `/api/classify`
endpoint, however, implements only GET (reading `image_path` from the query
string), so it answers every POST — in particular that one — with 405
Method Not Allowed rather than a classification body. -/
theorem C6_amended_classify_post_method_mismatch (w : World) (args : ArgDict)
    (path : String) (bytes : List Nat)
    (hp : dictGet args "image_path" = Except.ok (PyVal.str path))
    (hf : w.fileRead path = Except.ok bytes) :
    (_classify w args).2 = [classify_request path bytes] ∧
    classify_request path bytes
      = { method := HttpMethod.post
          url := "http://localhost:8004/api/classify"
          params := []
          files := [("file", path, bytes, "image/jpeg")] } ∧
    (∀ predict fileExists margs,
      classify_route predict fileExists HttpMethod.post margs
        = (405, methodNotAllowedBody)) := by
  refine ⟨classify_trace w args path bytes hp hf, rfl, ?_⟩
  intro predict fileExists margs
  rfl

/-- A world able to read one image file but with no working network. -/
def fileWorld : World :=
  { send := fun _ => Except.error "connection refused"
    fileRead := fun _ => Except.ok [255, 216, 255] }

/-- C6 witness at a concrete image path and file content. -/
theorem C6_amended_classify_post_method_mismatch_witness :
    dictGet [("image_path", PyVal.str "/tmp/pizza.jpg")] "image_path"
      = Except.ok (PyVal.str "/tmp/pizza.jpg") ∧
    fileWorld.fileRead "/tmp/pizza.jpg" = Except.ok [255, 216, 255] ∧
    (_classify fileWorld [("image_path", PyVal.str "/tmp/pizza.jpg")]).2
      = [classify_request "/tmp/pizza.jpg" [255, 216, 255]] ∧
    classify_route predictFail (fun _ => false) HttpMethod.post
      [("image_path", "/tmp/pizza.jpg")] = (405, methodNotAllowedBody) :=
  ⟨rfl, rfl,
    (C6_amended_classify_post_method_mismatch fileWorld
      [("image_path", PyVal.str "/tmp/pizza.jpg")] "/tmp/pizza.jpg"
      [255, 216, 255] rfl rfl).1,
    (C6_amended_classify_post_method_mismatch fileWorld
      [("image_path", PyVal.str "/tmp/pizza.jpg")] "/tmp/pizza.jpg"
      [255, 216, 255] rfl rfl).2.2 predictFail (fun _ => false)
      [("image_path", "/tmp/pizza.jpg")]⟩

/-- C7.  `handle_list_tools` is a pure constant (in this embedding it takes
no state and no arguments, so every call within a session yields the same
descriptor sequence with no mutation), and the catalog consists of a
food-search tool `search_foods` whose schema requires the single string
argument `query`, and an image-classification tool `classify` whose schema
requires the single string argument `image_path`. -/
theorem C7_list_tools_catalog :
    handle_list_tools.map Tool.name = ["search_foods", "classify"] ∧
    (∃ t, t ∈ handle_list_tools ∧ t.name = "search_foods" ∧
      jsonField t.inputSchema "required" = some (Json.arr [Json.str "query"]) ∧
      Option.bind (Option.bind (jsonField t.inputSchema "properties")
          (fun p => jsonField p "query")) (fun s => jsonField s "type")
        = some (Json.str "string")) ∧
    (∃ t, t ∈ handle_list_tools ∧ t.name = "classify" ∧
      jsonField t.inputSchema "required" = some (Json.arr [Json.str "image_path"]) ∧
      Option.bind (Option.bind (jsonField t.inputSchema "properties")
          (fun p => jsonField p "image_path")) (fun s => jsonField s "type")
        = some (Json.str "string")) := by
  refine ⟨rfl, ⟨_, List.mem_cons_self _ _, rfl, rfl, rfl⟩,
    ⟨_, List.mem_cons_of_mem _ (List.mem_cons_self _ _), rfl, rfl, rfl⟩⟩

/-- C8.  `handle_read_resource` returns a string for exactly the two URIs
`food://search` and `food://details`; every other URI raises the
`ValueError` mentioning the unknown resource (a protocol-level error)
instead of returning content. -/
theorem C8_read_resource_partition (uri : String) :
    ((∃ s, handle_read_resource uri = Except.ok s) ↔
      (uri = "food://search" ∨ uri = "food://details")) ∧
    (uri ≠ "food://search" → uri ≠ "food://details" →
      handle_read_resource uri = Except.error ("Unknown resource: " ++ uri)) := by
  constructor
  · constructor
    · rintro ⟨s, hs⟩
      by_cases h1 : uri = "food://search"
      · exact Or.inl h1
      · by_cases h2 : uri = "food://details"
        · exact Or.inr h2
        · rw [handle_read_resource, if_neg h1, if_neg h2] at hs
          cases hs
    · rintro (h | h) <;> subst h
      · exact ⟨"Use the search_foods tool to search for foods", rfl⟩
      · exact ⟨"Use the get_food_details tool to get food information", rfl⟩
  · intro h1 h2
    rw [handle_read_resource, if_neg h1, if_neg h2]

/-- C8 witness: the unknown URI of the spec's acceptance test errors, and a
known URI succeeds. -/
theorem C8_read_resource_partition_witness :
    handle_read_resource "food://unknown"
      = Except.error ("Unknown resource: " ++ "food://unknown") ∧
    (∃ s, handle_read_resource "food://search" = Except.ok s) :=
  ⟨(C8_read_resource_partition "food://unknown").2 (by decide) (by decide),
    (C8_read_resource_partition "food://search").1.mpr (Or.inl rfl)⟩

/-- C9.  For every integer list `fdc_ids`, the `get_multiple_foods` handler
performs exactly one GET request to `{backend}/api/foods` whose `fdcIds`
parameter is the comma-joined decimal rendering of the ids in order, and
whose `format` parameter is the supplied `format` argument when present and
`"full"` when absent; `get_food_details` likewise performs one GET with the
same `format` defaulting. -/
theorem C9_batch_request_params (w : World) (args : ArgDict) (ids : List Int)
    (hids : dictGet args "fdc_ids" = Except.ok (PyVal.list (ids.map PyVal.int))) :
    (_get_multiple_foods w args).2
      = [multiple_foods_request
          (String.intercalate "," (ids.map (fun i => String.mk (intChars i))))
          (dictGetD args "format" (PyVal.str "full"))] ∧
    (∀ js fmt, multiple_foods_request js fmt
        = { method := HttpMethod.get
            url := "http://localhost:8004/api/foods"
            params := [("fdcIds", PyVal.str js), ("format", fmt)]
            files := [] }) ∧
    (List.lookup "format" args = Option.none →
      dictGetD args "format" (PyVal.str "full") = PyVal.str "full") ∧
    (∀ v, List.lookup "format" args = some v →
      dictGetD args "format" (PyVal.str "full") = v) ∧
    (∀ w2 args2 fid, dictGet args2 "fdc_id" = Except.ok fid →
      (_get_food_details w2 args2).2
        = [food_details_request fid (dictGetD args2 "format" (PyVal.str "full"))]) := by
  have hmap : (ids.map PyVal.int).map PyVal.toStr
      = ids.map (fun i => String.mk (intChars i)) := by
    rw [List.map_map]
    rfl
  refine ⟨?_, fun js fmt => rfl, ?_, ?_, ?_⟩
  · have h := multiple_foods_trace w args (ids.map PyVal.int) hids
    rw [hmap] at h
    exact h
  · intro h
    rw [dictGetD, h]
  · intro v h
    rw [dictGetD, h]
  · intro w2 args2 fid h
    exact get_food_details_trace w2 args2 fid h

/-- C9 witness at two concrete ids with `format` absent, plus a concrete
`get_food_details` call. -/
theorem C9_batch_request_params_witness :
    dictGet [("fdc_ids", PyVal.list [PyVal.int 2344719, PyVal.int 2344720])] "fdc_ids"
      = Except.ok (PyVal.list ([(2344719 : Int), 2344720].map PyVal.int)) ∧
    (_get_multiple_foods failWorld
        [("fdc_ids", PyVal.list [PyVal.int 2344719, PyVal.int 2344720])]).2
      = [multiple_foods_request "2344719,2344720" (PyVal.str "full")] ∧
    (_get_food_details failWorld [("fdc_id", PyVal.int 2344719)]).2
      = [food_details_request (PyVal.int 2344719) (PyVal.str "full")] := by
  refine ⟨rfl, ?_, ?_⟩
  · have h := (C9_batch_request_params failWorld
      [("fdc_ids", PyVal.list [PyVal.int 2344719, PyVal.int 2344720])]
      [(2344719 : Int), 2344720] rfl).1
    exact h
  · have h := (C9_batch_request_params failWorld
      [("fdc_ids", PyVal.list [PyVal.int 2344719, PyVal.int 2344720])]
      [(2344719 : Int), 2344720] rfl).2.2.2.2 failWorld
      [("fdc_id", PyVal.int 2344719)] (PyVal.int 2344719) rfl
    exact h

/-- C10.  `get_food_details` and `get_multiple_foods` are absent from the
`handle_list_tools` catalog (their descriptors are commented out in the
source), yet `handle_call_tool` still routes both names to their implemented
handlers — not to the unknown-tool failure — and a call with a well-formed
`fdc_id` performs the real upstream HTTP request. -/
theorem C10_hidden_tools_routed (w : World) (args : ArgDict) :
    "get_food_details" ∉ handle_list_tools.map Tool.name ∧
    "get_multiple_foods" ∉ handle_list_tools.map Tool.name ∧
    route_call w "get_food_details" args = _get_food_details w args ∧
    route_call w "get_multiple_foods" args = _get_multiple_foods w args ∧
    (∀ fid, dictGet args "fdc_id" = Except.ok fid →
      (handle_call_tool w "get_food_details" args).2
        = [food_details_request fid (dictGetD args "format" (PyVal.str "full"))]) := by
  refine ⟨?_, ?_, rfl, rfl, ?_⟩
  · rw [show handle_list_tools.map Tool.name = ["search_foods", "classify"] from rfl]
    decide
  · rw [show handle_list_tools.map Tool.name = ["search_foods", "classify"] from rfl]
    decide
  · intro fid h
    rw [call_tool_trace]
    rw [show (route_call w "get_food_details" args).2
          = (_get_food_details w args).2 from rfl]
    exact get_food_details_trace w args fid h

/-- C10 witness at a concrete `fdc_id`. -/
theorem C10_hidden_tools_routed_witness :
    dictGet [("fdc_id", PyVal.int 2344719)] "fdc_id" = Except.ok (PyVal.int 2344719) ∧
    (handle_call_tool failWorld "get_food_details" [("fdc_id", PyVal.int 2344719)]).2
      = [food_details_request (PyVal.int 2344719) (PyVal.str "full")] := by
  refine ⟨rfl, ?_⟩
  have h := (C10_hidden_tools_routed failWorld
    [("fdc_id", PyVal.int 2344719)]).2.2.2.2 (PyVal.int 2344719) rfl
  exact h
